import Mathlib

/-!
# yext/saml: gzip session-cookie codec and service-provider bootstrap

A shallow embedding of

* `example/gzipcookie/gzipcookie.go`: `GzipSessionCodec.Encode`, `GzipSessionCodec.Decode`;
* `samlsp/samlsp.go`: `New`.

Go strings are modelled as lists of characters, byte slices as lists of `Fin 256`,
Go `error` values by their `Error()` text.  The Go standard library functions the
two files call (`strings.Split`, `strings.Join`, `base64.RawURLEncoding`,
`net.SplitHostPort`) are embedded from their Go sources; the collaborators whose
code is data dependent on the outside world (the gzip stream format, the JWT
codec, the HTTP client, the XML decoder) are parameters.
-/

namespace Saml

deriving instance DecidableEq for Except

/-- One octet. -/
abbrev Byte := Fin 256

/-- Go `[]byte`. -/
abbrev Bytes := List Byte

/-- Go `string`, as the list of its characters. -/
abbrev Str := List Char

/-- Truncating conversion `byte(v)` of an unsigned machine integer. -/
def toByte (v : Nat) : Byte := ⟨v % 256, Nat.mod_lt _ (by decide)⟩

/-! ## package strings -/

namespace strings

/-- Go `strings.Split(s, sep)` for a one-character separator: every substring
between separators, so `n` separators give `n + 1` pieces. -/
def Split (s : Str) (sep : Char) : List Str := s.splitOn sep

/-- Go `strings.Join(elems, sep)` for a one-character separator. -/
def Join (elems : List Str) (sep : Char) : Str := [sep].intercalate elems

end strings

/-! ## package encoding/base64, `RawURLEncoding` -/

namespace base64

/-- The URL alphabet `encodeURL` of `encoding/base64`. -/
def encodeURL : List Char :=
  ['A', 'B', 'C', 'D', 'E', 'F', 'G', 'H', 'I', 'J', 'K', 'L', 'M',
   'N', 'O', 'P', 'Q', 'R', 'S', 'T', 'U', 'V', 'W', 'X', 'Y', 'Z',
   'a', 'b', 'c', 'd', 'e', 'f', 'g', 'h', 'i', 'j', 'k', 'l', 'm',
   'n', 'o', 'p', 'q', 'r', 's', 't', 'u', 'v', 'w', 'x', 'y', 'z',
   '0', '1', '2', '3', '4', '5', '6', '7', '8', '9', '-', '_']

/-- The lookup `enc.encode[v & 0x3F]`. -/
def encode (v : Nat) : Char := encodeURL.getD (v % 64) 'A'

/-- The lookup `enc.decodeMap[in]`; `none` stands for the entry `0xff`. -/
def decodeMap (c : Char) : Option Nat :=
  if encodeURL.indexOf c < 64 then some (encodeURL.indexOf c) else none

/-- Go `(*Encoding).EncodeToString` for `RawURLEncoding` (no padding): three
bytes become four characters, a remainder of two bytes three characters and a
remainder of one byte two characters.  `val` is the 24 bit group; the shifts
`val>>k&0x3F` are written `val / 2^k % 64`. -/
def EncodeToString : Bytes → Str
  | a :: b :: c :: rest =>
      let val := a.val * 65536 + b.val * 256 + c.val
      encode (val / 262144 % 64) :: encode (val / 4096 % 64) ::
        encode (val / 64 % 64) :: encode (val % 64) :: EncodeToString rest
  | [a, b] =>
      let val := a.val * 65536 + b.val * 256
      [encode (val / 262144 % 64), encode (val / 4096 % 64), encode (val / 64 % 64)]
  | [a] =>
      let val := a.val * 65536
      [encode (val / 262144 % 64), encode (val / 4096 % 64)]
  | [] => []

/-- The tail of `decodeQuantum`: `dlen` collected 6 bit values (2, 3 or 4 of
them, missing ones zero) are converted to `dlen - 1` bytes.  The encoding is
not strict, so the unused low bits of a short group are not inspected. -/
def quantum (dbuf : List Nat) : Bytes :=
  let val := dbuf.getD 0 0 * 262144 + dbuf.getD 1 0 * 4096 + dbuf.getD 2 0 * 64 + dbuf.getD 3 0
  [toByte (val / 65536), toByte (val / 256), toByte val].take (dbuf.length - 1)

/-- The loop of `(*Encoding).Decode` with `decodeQuantum` inlined, for an
encoding without padding.  `si` is the index of the next input character,
`dbuf` the 6 bit values of the group being collected, `dst` the bytes decoded
so far.  Carriage return and line feed are skipped, any other character outside
the alphabet is `CorruptInputError(si)`, and an input ending one character into
a group is `CorruptInputError(len - 1)`. -/
def decodeLoop : Str → Nat → List Nat → Bytes → Except Nat Bytes
  | [], si, dbuf, dst =>
      match dbuf.length with
      | 0 => .ok dst
      | 1 => .error (si - 1)
      | _ => .ok (dst ++ quantum dbuf)
  | c :: cs, si, dbuf, dst =>
      match decodeMap c with
      | some out =>
          if dbuf.length = 3 then decodeLoop cs (si + 1) [] (dst ++ quantum (dbuf ++ [out]))
          else decodeLoop cs (si + 1) (dbuf ++ [out]) dst
      | none =>
          if c = '\n' ∨ c = '\r' then decodeLoop cs (si + 1) dbuf dst
          else .error si

/-- Go `(*Encoding).DecodeString` for `RawURLEncoding`; the error is the offset
carried by `CorruptInputError`. -/
def DecodeString (s : Str) : Except Nat Bytes := decodeLoop s 0 [] []

/-- The text of `CorruptInputError(n).Error()`. -/
def CorruptInputError (n : Nat) : String :=
  "illegal base64 data at input byte " ++ toString n

end base64

/-! ## package gzipcookie -/

/-- The inner codec `samlsp.JWTSessionCodec` embedded in `GzipSessionCodec`:
its two methods, over an arbitrary session type. -/
structure JWTSessionCodec (Session : Type) where
  /-- The method `JWTSessionCodec.Encode`: the signed token, or the error. -/
  Encode : Session → Except String Str
  /-- The method `JWTSessionCodec.Decode`: the session, or the error. -/
  Decode : Str → Except String Session

/-- The part of `compress/gzip` the codec uses, over the type of the reader
that `gzip.NewReader` returns. -/
structure Gzip (Reader : Type) where
  /-- The buffer contents after `gzip.NewWriter(buf)`, `w.Write(b)`, `w.Close()`
  on a fresh `bytes.Buffer`. -/
  compress : Bytes → Bytes
  /-- The call `gzip.NewReader(bytes.NewReader(b))`, which reads the stream header. -/
  NewReader : Bytes → Except String Reader
  /-- The call `ioutil.ReadAll(r)` on a gzip reader. -/
  ReadAll : Reader → Except String Bytes

/-- How a Go call ends: with a value, with a non-nil `error`, or in a `panic`. -/
inductive Result (α : Type) where
  | ok (v : α)
  | error (err : String)
  | panic (v : String)
  deriving DecidableEq, Repr

/-- A call made to a collaborator: the inner codec or the gzip package. -/
inductive Call (Session : Type) where
  | JWTEncode (s : Session)
  | JWTDecode (token : Str)
  | gzipWrite (b : Bytes)
  | gzipNewReader (b : Bytes)
  | gzipReadAll
  deriving DecidableEq, Repr

/-- The result of a run together with the collaborator calls made, in order. -/
structure Run (Session α : Type) where
  result : Result α
  calls : List (Call Session)
  deriving DecidableEq

namespace GzipSessionCodec

/-- Go `GzipSessionCodec.Encode`. -/
def Encode {Session Reader : Type} (c : JWTSessionCodec Session) (gz : Gzip Reader)
    (s : Session) : Run Session Str :=
  match c.Encode s with
  | .error err => ⟨.error err, [.JWTEncode s]⟩
  | .ok uncompressedToken =>
      let parts := strings.Split uncompressedToken '.'
      if parts.length ≠ 3 then ⟨.panic "invalid JWT", [.JWTEncode s]⟩
      else
        match base64.DecodeString (parts.getD 1 []) with
        | .error n => ⟨.error (base64.CorruptInputError n), [.JWTEncode s]⟩
        | .ok binary =>
            let compressedMiddle := gz.compress binary
            let parts := parts.set 1 (base64.EncodeToString compressedMiddle)
            ⟨.ok (strings.Join parts '.'), [.JWTEncode s, .gzipWrite binary]⟩

/-- Go `GzipSessionCodec.Decode`. -/
def Decode {Session Reader : Type} (c : JWTSessionCodec Session) (gz : Gzip Reader)
    (compressed : Str) : Run Session Session :=
  let parts := strings.Split compressed '.'
  if parts.length ≠ 3 then ⟨.error "invalid JWT", []⟩
  else
    match base64.DecodeString (parts.getD 1 []) with
    | .error n => ⟨.error (base64.CorruptInputError n), []⟩
    | .ok compressedBinary =>
        match gz.NewReader compressedBinary with
        | .error err => ⟨.error err, [.gzipNewReader compressedBinary]⟩
        | .ok r =>
            match gz.ReadAll r with
            | .error err => ⟨.error err, [.gzipNewReader compressedBinary, .gzipReadAll]⟩
            | .ok buf =>
                let parts := parts.set 1 (base64.EncodeToString buf)
                let uncompressedToken := strings.Join parts '.'
                ⟨match c.Decode uncompressedToken with
                  | .ok session => .ok session
                  | .error err => .error err,
                 [.gzipNewReader compressedBinary, .gzipReadAll, .JWTDecode uncompressedToken]⟩

end GzipSessionCodec

/-- The gzip writer and reader are inverse to each other: what the writer
emits, the reader accepts and reads back unchanged. -/
def Gzip.Lossless {Reader : Type} (gz : Gzip Reader) : Prop :=
  ∀ b : Bytes, ∃ r, gz.NewReader (gz.compress b) = .ok r ∧ gz.ReadAll r = .ok b

/-- A toy stream format used to instantiate `Gzip`: the two magic bytes of a
gzip member followed by the data, stored uncompressed. -/
def storedGzip : Gzip Bytes where
  compress b := 31 :: 139 :: b
  NewReader b :=
    match b with
    | 31 :: 139 :: rest => .ok rest
    | _ => .error "gzip: invalid header"
  ReadAll r := .ok r

/-- An inner codec over one-point sessions that always emits `token` and
accepts exactly `token`. -/
def constCodec (token : Str) : JWTSessionCodec Unit where
  Encode _ := .ok token
  Decode t := if t = token then .ok () else .error "signature is invalid"

/-- Modelled from the spec: the tokens of the inner codec
`samlsp.JWTSessionCodec`, whose code is not among the sources.  A signed token
is "a string composed of exactly three dot-separated segments — header,
payload, signature — each independently base64url-encoded without padding". -/
def SignedToken (t : Str) : Prop :=
  ∃ header payload signature : Bytes,
    t = strings.Join [base64.EncodeToString header, base64.EncodeToString payload,
      base64.EncodeToString signature] '.'

/-- Every token the inner `Encode` returns is a signed token. -/
def JWTSessionCodec.EmitsSignedTokens {Session : Type} (c : JWTSessionCodec Session) : Prop :=
  ∀ s t, c.Encode s = .ok t → SignedToken t

/-! ## package net -/

namespace net

/-- Go `last(s, b)`: the index of the last occurrence of `b` in `s`, `none` for `-1`. -/
def last (s : Str) (b : Char) : Option Nat :=
  match s.reverse.indexOf? b with
  | some r => some (s.length - 1 - r)
  | none => none

/-- Go `bytealg.IndexByteString(s, c)`: the index of the first occurrence, `none` for `-1`. -/
def IndexByteString (s : Str) (c : Char) : Option Nat := s.indexOf? c

/-- The text of `(&AddrError{Err: why, Addr: addr}).Error()`: the reason,
behind `address <addr>: ` unless the address is empty. -/
def addrErr (addr : Str) (why : String) : String :=
  if addr ≠ [] then "address " ++ String.mk addr ++ ": " ++ why else why

/-- Go `net.SplitHostPort`: splits `host:port`, `[host]:port` or
`[host%zone]:port` at the last colon, returning host (without brackets) and
port, or the text of the `AddrError`. -/
def SplitHostPort (hostport : Str) : Except String (Str × Str) :=
  match last hostport ':' with
  | none => .error (addrErr hostport "missing port in address")
  | some i =>
      let finish (host : Str) (j k : Nat) : Except String (Str × Str) :=
        if (IndexByteString (hostport.drop j) '[').isSome then
          .error (addrErr hostport "unexpected '[' in address")
        else if (IndexByteString (hostport.drop k) ']').isSome then
          .error (addrErr hostport "unexpected ']' in address")
        else .ok (host, hostport.drop (i + 1))
      if hostport.head? = some '[' then
        match IndexByteString hostport ']' with
        | none => .error (addrErr hostport "missing ']' in address")
        | some end_ =>
            if end_ + 1 = hostport.length then
              .error (addrErr hostport "missing port in address")
            else if end_ + 1 = i then
              finish ((hostport.take end_).drop 1) 1 (end_ + 1)
            else if hostport.getD (end_ + 1) 'x' = ':' then
              .error (addrErr hostport "too many colons in address")
            else .error (addrErr hostport "missing port in address")
      else
        let host := hostport.take i
        if (IndexByteString host ':').isSome then
          .error (addrErr hostport "too many colons in address")
        else finish host 0 0

/-- The two forms of an authority with a port, `host:port` and `[host]:port`:
the port has no colon and no bracket, the host no bracket, and outside
brackets the host has no colon either. -/
def JoinedHostPort (hostport host port : Str) : Prop :=
  ':' ∉ port ∧ '[' ∉ port ∧ ']' ∉ port ∧ '[' ∉ host ∧ ']' ∉ host ∧
  ((hostport = host ++ ':' :: port ∧ ':' ∉ host) ∨
    hostport = '[' :: (host ++ ']' :: ':' :: port))

end net

/-! ## package samlsp -/

namespace time

/-- Go `time.Duration` counts nanoseconds. -/
abbrev Duration := Nat

/-- Go `time.Second`. -/
def Second : Duration := 1000000000

/-- Go `time.Hour`. -/
def Hour : Duration := 3600 * Second

end time

namespace url

/-- The fields of Go `url.URL` that `New` reads. -/
structure URL where
  Scheme : String
  Host : Str
  Path : String
  deriving DecidableEq, Repr

end url

namespace saml

/-- One `IDPSSODescriptor` element of an entity, by its single sign-on location. -/
structure IDPSSODescriptor where
  SingleSignOnService : String
  deriving DecidableEq, Repr

/-- The fields of `saml.EntityDescriptor` that `New` reads. -/
structure EntityDescriptor where
  EntityID : String
  IDPSSODescriptors : List IDPSSODescriptor
  deriving DecidableEq, Repr

/-- Go `saml.EntitiesDescriptor`: the entities of a collection, in document order. -/
structure EntitiesDescriptor where
  EntityDescriptors : List EntityDescriptor
  deriving DecidableEq, Repr

/-- The fields of `saml.ServiceProvider` that `New` sets; key material and
certificates are carried as their bytes, `none` for a nil pointer. -/
structure ServiceProvider where
  Key : Option Bytes
  Logger : String
  Certificate : Option Bytes
  Intermediates : List Bytes
  MetadataURL : url.URL
  AcsURL : url.URL
  SloURL : url.URL
  IDPMetadata : Option EntityDescriptor
  ForceAuthn : Bool
  AllowIDPInitiated : Bool
  deriving DecidableEq, Repr

end saml

namespace http

/-- The fields of `http.Request` that `New` sets. -/
structure Request where
  Method : String
  URL : String
  Header : List (String × String)
  deriving DecidableEq, Repr

/-- An `http.Response` as `New` reads it: status code, status text, and what
`ioutil.ReadAll(resp.Body)` returns. -/
structure Response where
  StatusCode : Nat
  Status : String
  Body : Except String Bytes

/-- An `http.Client`: what `c.Do(req)` returns on its `n`-th call (from 0). -/
abbrev Client := Nat → Request → Except String Response

/-- Go `http.StatusOK`. -/
def StatusOK : Nat := 200

end http

namespace samlsp

/-- Go `defaultTokenMaxAge`. -/
def defaultTokenMaxAge : time.Duration := time.Hour

/-- Go `samlsp.Options`. -/
structure Options where
  URL : url.URL
  Key : Option Bytes
  Logger : Option String
  Certificate : Option Bytes
  Intermediates : List Bytes
  AllowIDPInitiated : Bool
  IDPMetadata : Option saml.EntityDescriptor
  IDPMetadataURL : Option url.URL
  HTTPClient : Option http.Client
  CookieMaxAge : time.Duration
  CookieName : String
  CookieDomain : Str
  CookieSecure : Bool
  ForceAuthn : Bool

/-- Go `samlsp.ClientCookies`, without its pointer back to the service provider. -/
structure ClientCookies where
  Name : String
  Domain : Str
  Secure : Bool
  deriving DecidableEq, Repr

/-- Go `samlsp.Middleware`; `ClientState` and `ClientToken` are `none` for a
nil interface value. -/
structure Middleware where
  ServiceProvider : saml.ServiceProvider
  AllowIDPInitiated : Bool
  TokenMaxAge : time.Duration
  ClientState : Option ClientCookies
  ClientToken : Option ClientCookies
  deriving DecidableEq, Repr

/-- What `New` takes from outside `samlsp.go`: library functions whose result
is not inspected here, package level values declared in other files, and the
XML decoder.  The two `Unmarshal` fields return the value left in the target
together with the error, `none` for nil. -/
structure Env where
  Parse : String → url.URL
  ResolveReference : url.URL → url.URL → url.URL
  URLString : url.URL → String
  NewRequest : String → String → Except String http.Request
  DefaultClient : http.Client
  DefaultLogger : String
  defaultCookieName : String
  UnmarshalEntity : Bytes → saml.EntityDescriptor × Option String
  UnmarshalEntities : Bytes → saml.EntitiesDescriptor × Option String

/-- An effect of `New` on the outside world. -/
inductive Event where
  | Do (req : http.Request)
  | Printf (msg : String)
  | Sleep (d : time.Duration)
  deriving DecidableEq, Repr

/-- What a call of `New` returns, with its effects in order. -/
structure NewRun where
  result : Result Middleware
  events : List Event

/-- The function literal that computes `ClientCookies.Domain` in `New`. -/
def cookieDomain (opts : Options) : Str :=
  if opts.CookieDomain ≠ [] then opts.CookieDomain
  else
    match net.SplitHostPort opts.URL.Host with
    | .error _ => opts.URL.Host
    | .ok (host, _) => host

/-- The function literal that computes `ClientCookies.Name` in `New`. -/
def cookieName (env : Env) (opts : Options) : String :=
  if opts.CookieName ≠ "" then opts.CookieName else env.defaultCookieName

/-- One fetch in the loop of `New`, from the result of `c.Do(req)`: a status
other than 200 becomes the error `"%d %s"`, otherwise the body is read. -/
def fetch (r : Except String http.Response) : Except String Bytes :=
  match r with
  | .error err => .error err
  | .ok resp =>
      if resp.StatusCode ≠ http.StatusOK then
        .error (toString resp.StatusCode ++ " " ++ resp.Status)
      else resp.Body

/-- The `range` loop of `New` over `entities.EntityDescriptors`, on the
variables `entity` and `err`. -/
def selectLoop : List saml.EntityDescriptor → saml.EntityDescriptor × Option String →
    saml.EntityDescriptor × Option String
  | [], st => st
  | e :: es, st =>
      if e.IDPSSODescriptors.length > 0 then selectLoop es (e, none)
      else selectLoop es st

/-- The text `encoding/xml` produces when the root element is a collection. -/
def expectedEntityDescriptor : String :=
  "expected element type <EntityDescriptor> but have <EntitiesDescriptor>"

/-- The part of the loop body of `New` after a successful fetch: the entity to
assign to `IDPMetadata`, or the error to return. -/
def resolveEntity (env : Env) (data : Bytes) : Except String saml.EntityDescriptor :=
  let (entity, err) := env.UnmarshalEntity data
  if err = some expectedEntityDescriptor then
    let (entities, err2) := env.UnmarshalEntities data
    match err2 with
    | some e => .error e
    | none =>
        let (entity, err) :=
          selectLoop entities.EntityDescriptors (entity, some "no entity found with IDPSSODescriptor")
        match err with
        | some e => .error e
        | none => .ok entity
  else
    match err with
    | some e => .error e
    | none => .ok entity

/-- The `for i := 0; true; i++` loop of `New`, from iteration `i` with the
effects so far.  `fuel` bounds the iterations left; `New` starts with 12, which
is never used up, and the `panic("unreachable")` after the loop stands for
running out. -/
def fetchLoop (env : Env) (c : http.Client) (req : http.Request) (idpURL : String)
    (m : Middleware) : Nat → Nat → List Event → NewRun
  | 0, _, events => ⟨.panic "unreachable", events⟩
  | fuel + 1, i, events =>
      match fetch (c i req) with
      | .error err =>
          if i > 10 then ⟨.error err, events ++ [.Do req]⟩
          else
            fetchLoop env c req idpURL m fuel (i + 1)
              (events ++ [.Do req,
                .Printf ("ERROR: " ++ idpURL ++ ": " ++ err ++ " (will retry)"),
                .Sleep (5 * time.Second)])
      | .ok data =>
          match resolveEntity env data with
          | .error err => ⟨.error err, events ++ [.Do req]⟩
          | .ok entity =>
              ⟨.ok { m with ServiceProvider := { m.ServiceProvider with IDPMetadata := some entity } },
               events ++ [.Do req]⟩

/-- The request `New` sends: `req` with `req.Header.Set("User-Agent", ...)` applied. -/
def withUserAgent (req : http.Request) : http.Request :=
  { req with
    Header := ("User-Agent", "Golang; github.com/crewjam/saml") ::
      req.Header.filter (fun kv => kv.1 ≠ "User-Agent") }

/-- The client `c` of `New`: `opts.HTTPClient`, or `http.DefaultClient` when nil. -/
def client (env : Env) (opts : Options) : http.Client :=
  match opts.HTTPClient with
  | none => env.DefaultClient
  | some c => c

/-- Go `samlsp.New`. -/
def New (env : Env) (opts : Options) : NewRun :=
  let metadataRelURL := env.Parse "saml/metadata"
  let metadataURL := env.ResolveReference opts.URL metadataRelURL
  let acsRelURL := env.Parse "saml/acs"
  let acsURL := env.ResolveReference opts.URL acsRelURL
  let logr := match opts.Logger with
    | none => env.DefaultLogger
    | some l => l
  let sloRelURL := env.Parse "saml/slo"
  let sloURL := env.ResolveReference opts.URL sloRelURL
  let tokenMaxAge := if opts.CookieMaxAge = 0 then defaultTokenMaxAge else opts.CookieMaxAge
  let m : Middleware :=
    { ServiceProvider :=
        { Key := opts.Key
          Logger := logr
          Certificate := opts.Certificate
          Intermediates := opts.Intermediates
          MetadataURL := metadataURL
          AcsURL := acsURL
          SloURL := sloURL
          IDPMetadata := opts.IDPMetadata
          ForceAuthn := opts.ForceAuthn
          AllowIDPInitiated := opts.AllowIDPInitiated }
      AllowIDPInitiated := opts.AllowIDPInitiated
      TokenMaxAge := tokenMaxAge
      ClientState := none
      ClientToken := none }
  let cookieStore : ClientCookies :=
    { Name := cookieName env opts
      Domain := cookieDomain opts
      Secure := opts.CookieSecure }
  let m := { m with ClientState := some cookieStore, ClientToken := some cookieStore }
  match opts.IDPMetadataURL with
  | none => ⟨.ok m, []⟩
  | some idpURL =>
      let c := client env opts
      match env.NewRequest "GET" (env.URLString idpURL) with
      | .error err => ⟨.error err, []⟩
      | .ok req =>
          let req := withUserAgent req
          fetchLoop env c req (env.URLString idpURL) m 12 0 []

/-- The value of `m` in `New` when the metadata fetch starts: everything but
a fetched `IDPMetadata`. -/
def assembled (env : Env) (opts : Options) : Middleware :=
  { ServiceProvider :=
      { Key := opts.Key
        Logger := match opts.Logger with
          | none => env.DefaultLogger
          | some l => l
        Certificate := opts.Certificate
        Intermediates := opts.Intermediates
        MetadataURL := env.ResolveReference opts.URL (env.Parse "saml/metadata")
        AcsURL := env.ResolveReference opts.URL (env.Parse "saml/acs")
        SloURL := env.ResolveReference opts.URL (env.Parse "saml/slo")
        IDPMetadata := opts.IDPMetadata
        ForceAuthn := opts.ForceAuthn
        AllowIDPInitiated := opts.AllowIDPInitiated }
    AllowIDPInitiated := opts.AllowIDPInitiated
    TokenMaxAge := if opts.CookieMaxAge = 0 then defaultTokenMaxAge else opts.CookieMaxAge
    ClientState := some ⟨cookieName env opts, cookieDomain opts, opts.CookieSecure⟩
    ClientToken := some ⟨cookieName env opts, cookieDomain opts, opts.CookieSecure⟩ }

/-- The assignment `m.ServiceProvider.IDPMetadata = entity`. -/
def setIDPMetadata (m : Middleware) (entity : saml.EntityDescriptor) : Middleware :=
  { m with ServiceProvider := { m.ServiceProvider with IDPMetadata := some entity } }

/-- The effects of failed attempts with the given errors, in order: for each
the request, the log line and the 5 second sleep. -/
def retryEvents (req : http.Request) (idpURL : String) : List String → List Event
  | [] => []
  | err :: rest =>
      .Do req :: .Printf ("ERROR: " ++ idpURL ++ ": " ++ err ++ " (will retry)") ::
        .Sleep (5 * time.Second) :: retryEvents req idpURL rest

/-- The number of HTTP requests among the effects. -/
def attempts (events : List Event) : Nat :=
  (events.filter (fun e => match e with
    | .Do _ => true
    | _ => false)).length

/-- The sleeps among the effects, in order. -/
def sleeps : List Event → List time.Duration
  | [] => []
  | .Sleep d :: rest => d :: sleeps rest
  | _ :: rest => sleeps rest

/-- An entity has at least one `IDPSSODescriptor`. -/
def hasIDPSSO (e : saml.EntityDescriptor) : Bool := decide (e.IDPSSODescriptors.length > 0)

/-- The `IDPMetadata` of the middleware a run returned, `none` when it returned none. -/
def resolvedIDP (r : NewRun) : Option saml.EntityDescriptor :=
  match r.result with
  | .ok m => m.ServiceProvider.IDPMetadata
  | _ => none

/-- The `Domain` of the cookie store of the middleware a run returned. -/
def cookieStoreDomain (r : NewRun) : Option Str :=
  match r.result with
  | .ok m => m.ClientState.map fun cs => cs.Domain
  | _ => none

/-- An environment for concrete runs: URLs are resolved by appending paths,
and the XML decoder reads the one byte documents `[1]` (a single entity),
`[2]` (a collection of three entities, the first and the last with an
`IDPSSODescriptor`), `[3]` (a collection of two entities without one) and
rejects everything else. -/
def stubEnv : Env where
  Parse p := ⟨"", [], p⟩
  ResolveReference base ref := { base with Path := base.Path ++ ref.Path }
  URLString u := u.Scheme ++ "://" ++ String.mk u.Host ++ u.Path
  NewRequest method u := .ok ⟨method, u, []⟩
  DefaultClient _ _ := .error "connection refused"
  DefaultLogger := "DefaultLogger"
  defaultCookieName := "token"
  UnmarshalEntity data :=
    match data with
    | [1] => (⟨"idp", [⟨"sso"⟩]⟩, none)
    | [2] => (⟨"", []⟩, some expectedEntityDescriptor)
    | [3] => (⟨"", []⟩, some expectedEntityDescriptor)
    | _ => (⟨"", []⟩, some "EOF")
  UnmarshalEntities data :=
    match data with
    | [2] => (⟨[⟨"a", [⟨"ssoA"⟩]⟩, ⟨"b", []⟩, ⟨"c", [⟨"ssoC"⟩]⟩]⟩, none)
    | [3] => (⟨[⟨"a", []⟩, ⟨"b", []⟩]⟩, none)
    | _ => (⟨[]⟩, some "EOF")

/-- Options for concrete runs: a service provider at `host`, fetching its
metadata through the client `c`. -/
def stubOptions (host : String) (c : http.Client) : Options where
  URL := ⟨"https", host.toList, "/"⟩
  Key := none
  Logger := none
  Certificate := none
  Intermediates := []
  AllowIDPInitiated := false
  IDPMetadata := none
  IDPMetadataURL := some ⟨"https", "idp.example.com".toList, "/metadata"⟩
  HTTPClient := some c
  CookieMaxAge := 0
  CookieName := ""
  CookieDomain := []
  CookieSecure := true
  ForceAuthn := false

/-- A client that always fails with a transport error. -/
def failingClient : http.Client := fun _ _ => .error "connection refused"

/-- A client whose first `k` calls answer 503 and whose later calls answer
200 with the body `data`. -/
def recoveringClient (k : Nat) (data : Bytes) : http.Client := fun n _ =>
  if n < k then .ok ⟨503, "Service Unavailable", .ok []⟩ else .ok ⟨200, "200 OK", .ok data⟩

end samlsp

namespace base64

theorem decodeMap_encode (v : Nat) : decodeMap (encode v) = some (v % 64) := by
  have h : ∀ i : Fin 64, decodeMap (encodeURL.getD i.val 'A') = some i.val := by decide
  exact h ⟨v % 64, Nat.mod_lt _ (by decide)⟩

theorem encode_ne_dot (v : Nat) : encode v ≠ '.' := by
  have h : ∀ i : Fin 64, encodeURL.getD i.val 'A' ≠ '.' := by decide
  exact h ⟨v % 64, Nat.mod_lt _ (by decide)⟩

theorem dot_not_mem_EncodeToString (b : Bytes) : '.' ∉ EncodeToString b := by
  induction b using EncodeToString.induct with
  | case1 a b c rest ih =>
      simp only [EncodeToString, List.mem_cons, not_or]
      exact ⟨(encode_ne_dot _).symm, (encode_ne_dot _).symm, (encode_ne_dot _).symm,
        (encode_ne_dot _).symm, ih⟩
  | case2 a b =>
      simp only [EncodeToString, List.mem_cons, not_or]
      exact ⟨(encode_ne_dot _).symm, (encode_ne_dot _).symm, (encode_ne_dot _).symm,
        List.not_mem_nil _⟩
  | case3 a =>
      simp only [EncodeToString, List.mem_cons, not_or]
      exact ⟨(encode_ne_dot _).symm, (encode_ne_dot _).symm, List.not_mem_nil _⟩
  | case4 => simp [EncodeToString]

theorem quantum4 (a b c : Byte) :
    quantum [(a.val * 65536 + b.val * 256 + c.val) / 262144 % 64 % 64,
      (a.val * 65536 + b.val * 256 + c.val) / 4096 % 64 % 64,
      (a.val * 65536 + b.val * 256 + c.val) / 64 % 64 % 64,
      (a.val * 65536 + b.val * 256 + c.val) % 64 % 64] = [a, b, c] := by
  have ha := a.isLt
  have hb := b.isLt
  have hc := c.isLt
  simp only [quantum, List.getD_cons_zero, List.getD_cons_succ, List.length_cons,
    List.length_nil, toByte]
  simp only [List.take, List.cons.injEq, and_true]
  refine ⟨Fin.ext ?_, Fin.ext ?_, Fin.ext ?_⟩ <;> simp only [] <;> omega

theorem quantum3 (a b : Byte) :
    quantum [(a.val * 65536 + b.val * 256) / 262144 % 64 % 64,
      (a.val * 65536 + b.val * 256) / 4096 % 64 % 64,
      (a.val * 65536 + b.val * 256) / 64 % 64 % 64] = [a, b] := by
  have ha := a.isLt
  have hb := b.isLt
  simp only [quantum, List.getD_cons_zero, List.getD_cons_succ, List.length_cons,
    List.length_nil, toByte, List.getD_nil]
  simp only [List.take, List.cons.injEq, and_true]
  refine ⟨Fin.ext ?_, Fin.ext ?_⟩ <;> simp only [] <;> omega

theorem quantum2 (a : Byte) :
    quantum [a.val * 65536 / 262144 % 64 % 64, a.val * 65536 / 4096 % 64 % 64] = [a] := by
  have ha := a.isLt
  simp only [quantum, List.getD_cons_zero, List.getD_cons_succ, List.length_cons,
    List.length_nil, toByte, List.getD_nil]
  simp only [List.take, List.cons.injEq, and_true]
  refine Fin.ext ?_
  simp only []
  omega

/-- Decoding the encoder's output, from any position and after any decoded
bytes, appends the encoded bytes. -/
theorem decodeLoop_EncodeToString (b : Bytes) :
    ∀ (si : Nat) (dst : Bytes), decodeLoop (EncodeToString b) si [] dst = .ok (dst ++ b) := by
  induction b using EncodeToString.induct with
  | case1 a b c rest ih =>
      intro si dst
      simp only [EncodeToString, decodeLoop, decodeMap_encode, List.length_nil,
        List.nil_append, List.length_cons, List.cons_append, quantum4, ih]
      simp
  | case2 a b =>
      intro si dst
      simp only [EncodeToString, decodeLoop, decodeMap_encode, List.length_nil,
        List.nil_append, List.length_cons, List.cons_append, quantum3]
      simp
  | case3 a =>
      intro si dst
      simp only [EncodeToString, decodeLoop, decodeMap_encode, List.length_nil,
        List.nil_append, List.length_cons, List.cons_append, quantum2]
      simp
  | case4 =>
      intro si dst
      simp [EncodeToString, decodeLoop]

/-- Law `DecodeString(EncodeToString(b)) = b` of the encoding. -/
theorem DecodeString_EncodeToString (b : Bytes) :
    DecodeString (EncodeToString b) = .ok b := by
  simpa [DecodeString] using decodeLoop_EncodeToString b 0 []

end base64

namespace strings

theorem Split_sep_not_mem (sep : Char) (s : Str) : ∀ l ∈ Split s sep, sep ∉ l := by
  induction s with
  | nil => simp [Split, List.splitOn_nil]
  | cons a tl ih =>
      intro l hl
      simp only [Split, List.splitOn, List.splitOnP_cons] at hl ih
      by_cases ha : (a == sep) = true
      · rw [if_pos ha] at hl
        rcases List.mem_cons.1 hl with h | h
        · subst h; simp
        · exact ih l h
      · rw [if_neg ha] at hl
        cases hsp : List.splitOnP (fun x => x == sep) tl with
        | nil => rw [hsp] at hl; simp at hl
        | cons hd rest =>
            rw [hsp] at hl ih
            simp only [List.modifyHead_cons, List.mem_cons] at hl
            rcases hl with h | h
            · subst h
              have hhd := ih hd (List.mem_cons_self _ _)
              simp only [List.mem_cons, not_or]
              refine ⟨?_, hhd⟩
              intro hc
              exact ha (by simp [hc])
            · exact ih l (List.mem_cons_of_mem _ h)

theorem Join_Split (sep : Char) (s : Str) : Join (Split s sep) sep = s :=
  List.intercalate_splitOn s sep

theorem Split_Join3 (sep : Char) (a b c : Str) (ha : sep ∉ a) (hb : sep ∉ b) (hc : sep ∉ c) :
    Split (Join [a, b, c] sep) sep = [a, b, c] := by
  refine List.splitOn_intercalate [a, b, c] sep ?_ (by simp)
  intro l hl
  simp only [List.mem_cons, List.mem_singleton, List.not_mem_nil, or_false] at hl
  rcases hl with h | h | h <;> subst h <;> assumption

end strings

namespace GzipSessionCodec

variable {Session Reader : Type}

theorem Encode_of_split (c : JWTSessionCodec Session) (gz : Gzip Reader) (s : Session)
    (t h p sg : Str) (b : Bytes) (henc : c.Encode s = .ok t)
    (hsplit : strings.Split t '.' = [h, p, sg]) (hp : base64.DecodeString p = .ok b) :
    Encode c gz s =
      ⟨.ok (strings.Join [h, base64.EncodeToString (gz.compress b), sg] '.'),
       [.JWTEncode s, .gzipWrite b]⟩ := by
  simp [Encode, henc, hsplit, hp]

theorem Decode_of_join (c : JWTSessionCodec Session) (gz : Gzip Reader)
    (h sg : Str) (x buf : Bytes) (r : Reader) (hh : '.' ∉ h) (hsg : '.' ∉ sg)
    (hr : gz.NewReader x = .ok r) (hbuf : gz.ReadAll r = .ok buf) :
    Decode c gz (strings.Join [h, base64.EncodeToString x, sg] '.') =
      ⟨match c.Decode (strings.Join [h, base64.EncodeToString buf, sg] '.') with
        | .ok session => .ok session
        | .error err => .error err,
       [.gzipNewReader x, .gzipReadAll,
        .JWTDecode (strings.Join [h, base64.EncodeToString buf, sg] '.')]⟩ := by
  have hsplit := strings.Split_Join3 '.' h (base64.EncodeToString x) sg hh
    (base64.dot_not_mem_EncodeToString x) hsg
  simp [Decode, hsplit, base64.DecodeString_EncodeToString, hr, hbuf]

/-- What `Decode` hands to the inner codec after `Encode`: the inner token
with its payload segment decoded and encoded again. -/
theorem Decode_Encode_calls (c : JWTSessionCodec Session) (gz : Gzip Reader) (s : Session)
    (t h p sg : Str) (b : Bytes) (henc : c.Encode s = .ok t)
    (hsplit : strings.Split t '.' = [h, p, sg]) (hp : base64.DecodeString p = .ok b)
    (hgz : gz.Lossless) :
    ∃ token, (Encode c gz s).result = .ok token ∧
      (Decode c gz token).calls =
        [.gzipNewReader (gz.compress b), .gzipReadAll,
         .JWTDecode (strings.Join [h, base64.EncodeToString b, sg] '.')] := by
  obtain ⟨r, hr, hread⟩ := hgz b
  have hmem := strings.Split_sep_not_mem '.' t
  rw [hsplit] at hmem
  refine ⟨_, by rw [Encode_of_split c gz s t h p sg b henc hsplit hp], ?_⟩
  rw [Decode_of_join c gz h sg _ b r (hmem h (by simp)) (hmem sg (by simp)) hr hread]

theorem storedGzip_Lossless : storedGzip.Lossless := by
  intro b
  exact ⟨b, rfl, rfl⟩

end GzipSessionCodec

/-! ## Claims about the gzip cookie codec -/

/-- C1. Codec round trip: when the inner `Encode` succeeds on `s` with a token
of three segments that the inner `Decode` maps back to `s`, the gzip pair is
lossless and base64url decoding and encoding are inverse on the payload
segment, then `GzipSessionCodec.Encode` succeeds and `GzipSessionCodec.Decode`
of its output succeeds with `s`. -/
theorem C1_codec_round_trip {Session Reader : Type} (c : JWTSessionCodec Session)
    (gz : Gzip Reader) (s : Session) (t h p sg : Str)
    (henc : c.Encode s = .ok t) (hsplit : strings.Split t '.' = [h, p, sg])
    (hdec : c.Decode t = .ok s) (hgz : gz.Lossless)
    (hb64 : ∃ b, base64.DecodeString p = .ok b ∧ base64.EncodeToString b = p) :
    ∃ token, (GzipSessionCodec.Encode c gz s).result = .ok token ∧
      (GzipSessionCodec.Decode c gz token).result = .ok s := by
  obtain ⟨b, hb, hbp⟩ := hb64
  obtain ⟨r, hr, hread⟩ := hgz b
  have hmem := strings.Split_sep_not_mem '.' t
  rw [hsplit] at hmem
  have hh : '.' ∉ h := hmem h (by simp)
  have hsg : '.' ∉ sg := hmem sg (by simp)
  have hjoin : strings.Join [h, p, sg] '.' = t := by
    rw [← hsplit]; exact strings.Join_Split '.' t
  refine ⟨_, by rw [GzipSessionCodec.Encode_of_split c gz s t h p sg b henc hsplit hb], ?_⟩
  rw [GzipSessionCodec.Decode_of_join c gz h sg _ b r hh hsg hr hread, hbp, hjoin, hdec]

/-- Witness for C1: the token `h.QQ.s` through the stored stream format. -/
theorem C1_codec_round_trip_witness :
    ∃ token, (GzipSessionCodec.Encode (constCodec "h.QQ.s".toList) storedGzip ()).result
        = .ok token ∧
      (GzipSessionCodec.Decode (constCodec "h.QQ.s".toList) storedGzip token).result = .ok () :=
  C1_codec_round_trip (constCodec "h.QQ.s".toList) storedGzip () "h.QQ.s".toList
    "h".toList "QQ".toList "s".toList (by decide) (by decide) (by decide)
    GzipSessionCodec.storedGzip_Lossless ⟨[65], by decide, by decide⟩

/-- C2. Byte-identical reconstruction: for every token `t` returned by the
inner `Encode` (whose tokens are signed tokens) that has exactly three
dot-separated segments whose payload segment decodes as unpadded base64url,
with the gzip pair lossless, `Encode` succeeds and `Decode` of its output
makes exactly one inner `Decode` call, on a token equal to `t`. -/
theorem C2_byte_identical_reconstruction {Session Reader : Type}
    (c : JWTSessionCodec Session) (gz : Gzip Reader) (s : Session) (t h p sg : Str)
    (b : Bytes) (henc : c.Encode s = .ok t) (hsplit : strings.Split t '.' = [h, p, sg])
    (hp : base64.DecodeString p = .ok b) (hjwt : c.EmitsSignedTokens) (hgz : gz.Lossless) :
    ∃ token, (GzipSessionCodec.Encode c gz s).result = .ok token ∧
      (GzipSessionCodec.Decode c gz token).calls =
        [.gzipNewReader (gz.compress b), .gzipReadAll, .JWTDecode t] := by
  obtain ⟨header, payload, signature, ht⟩ := hjwt s t henc
  have hsp := strings.Split_Join3 '.' _ _ _ (base64.dot_not_mem_EncodeToString header)
    (base64.dot_not_mem_EncodeToString payload) (base64.dot_not_mem_EncodeToString signature)
  rw [← ht, hsplit] at hsp
  have hpe : p = base64.EncodeToString payload := by
    have h1 := (List.cons.inj hsp).2
    exact (List.cons.inj h1).1
  have hb : base64.EncodeToString b = p := by
    have h2 := base64.DecodeString_EncodeToString payload
    rw [← hpe, hp] at h2
    rw [hpe, Except.ok.inj h2]
  have hjoin : strings.Join [h, p, sg] '.' = t := by
    rw [← hsplit]; exact strings.Join_Split '.' t
  obtain ⟨token, hok, hcalls⟩ :=
    GzipSessionCodec.Decode_Encode_calls c gz s t h p sg b henc hsplit hp hgz
  exact ⟨token, hok, by rw [hcalls, hb, hjoin]⟩

/-- Witness for C2: the signed token `QUJD.QQ.QkI`, whose segments encode the
bytes `ABC`, `A` and `BB`. -/
theorem C2_byte_identical_reconstruction_witness :
    ∃ token, (GzipSessionCodec.Encode (constCodec "QUJD.QQ.QkI".toList) storedGzip ()).result
        = .ok token ∧
      (GzipSessionCodec.Decode (constCodec "QUJD.QQ.QkI".toList) storedGzip token).calls =
        [.gzipNewReader (storedGzip.compress [65]), .gzipReadAll,
         .JWTDecode "QUJD.QQ.QkI".toList] :=
  C2_byte_identical_reconstruction (constCodec "QUJD.QQ.QkI".toList) storedGzip ()
    "QUJD.QQ.QkI".toList "QUJD".toList "QQ".toList "QkI".toList [65] (by decide) (by decide)
    (by decide)
    (fun _ t ht => ⟨[65, 66, 67], [65], [66, 66], by
      have e : t = "QUJD.QQ.QkI".toList := (Except.ok.inj ht).symm
      rw [e]
      decide⟩)
    GzipSessionCodec.storedGzip_Lossless

/-- C3, as stated, fails: on the two-segment inner token `a.b`, `Encode` ends
in `panic("invalid JWT")` and returns no error value. -/
theorem C3_counterexample :
    (constCodec "a.b".toList).Encode () = .ok "a.b".toList ∧
    (strings.Split "a.b".toList '.').length ≠ 3 ∧
    (GzipSessionCodec.Encode (constCodec "a.b".toList) storedGzip ()).result
      = .panic "invalid JWT" ∧
    ∀ err, (GzipSessionCodec.Encode (constCodec "a.b".toList) storedGzip ()).result
      ≠ .error err :=
  ⟨by decide, by decide, by decide, fun err h => by
    have h2 : (GzipSessionCodec.Encode (constCodec "a.b".toList) storedGzip ()).result
        = .panic "invalid JWT" := by decide
    rw [h2] at h
    exact Result.noConfusion h⟩

/-- C3, amended. When the inner `Encode` succeeds with a token that does not
split on `.` into exactly 3 segments, `GzipSessionCodec.Encode` panics with
`invalid JWT`, after the inner `Encode` call and nothing else. -/
theorem C3_encode_panics_on_malformed {Session Reader : Type}
    (c : JWTSessionCodec Session) (gz : Gzip Reader) (s : Session) (t : Str)
    (henc : c.Encode s = .ok t) (hlen : (strings.Split t '.').length ≠ 3) :
    GzipSessionCodec.Encode c gz s = ⟨.panic "invalid JWT", [.JWTEncode s]⟩ := by
  simp [GzipSessionCodec.Encode, henc, hlen]

/-- Witness for C3 amended: the two-segment inner token `a.b`. -/
theorem C3_encode_panics_on_malformed_witness :
    GzipSessionCodec.Encode (constCodec "a.b".toList) storedGzip ()
      = ⟨.panic "invalid JWT", [.JWTEncode ()]⟩ :=
  C3_encode_panics_on_malformed (constCodec "a.b".toList) storedGzip () "a.b".toList
    (by decide) (by decide)

/-- C4. Decode rejects malformed tokens: an input that does not split on `.`
into exactly 3 segments makes `Decode` return the error `invalid JWT` and no
session, with no call to the gzip reader or to the inner `Decode`. -/
theorem C4_decode_rejects_malformed {Session Reader : Type}
    (c : JWTSessionCodec Session) (gz : Gzip Reader) (compressed : Str)
    (hlen : (strings.Split compressed '.').length ≠ 3) :
    GzipSessionCodec.Decode c gz compressed = ⟨.error "invalid JWT", []⟩ := by
  simp [GzipSessionCodec.Decode, hlen]

/-- Witness for C4: the input `a.b`. -/
theorem C4_decode_rejects_malformed_witness :
    GzipSessionCodec.Decode (constCodec "h.QQ.s".toList) storedGzip "a.b".toList
      = ⟨.error "invalid JWT", []⟩ :=
  C4_decode_rejects_malformed (constCodec "h.QQ.s".toList) storedGzip "a.b".toList
    (by decide)

/-- C5. Envelope non-interference: whenever `Encode` succeeds, the inner token
and the output both split on `.` into exactly three segments, with the same
first (header) and the same third (signature) segment. -/
theorem C5_envelope_non_interference {Session Reader : Type}
    (c : JWTSessionCodec Session) (gz : Gzip Reader) (s : Session) (token : Str)
    (hok : (GzipSessionCodec.Encode c gz s).result = .ok token) :
    ∃ t h p q sg, c.Encode s = .ok t ∧ strings.Split t '.' = [h, p, sg] ∧
      strings.Split token '.' = [h, q, sg] := by
  unfold GzipSessionCodec.Encode at hok
  cases henc : c.Encode s with
  | error err => rw [henc] at hok; simp at hok
  | ok t =>
      rw [henc] at hok
      simp only [] at hok
      by_cases hlen : (strings.Split t '.').length = 3
      · rw [if_neg (by simpa using hlen)] at hok
        match hparts : strings.Split t '.', hlen with
        | [h, p, sg], _ =>
            rw [hparts] at hok
            cases hb : base64.DecodeString p with
            | error n => simp [hb] at hok
            | ok b =>
                simp [hb] at hok
                have hmem := strings.Split_sep_not_mem '.' t
                rw [hparts] at hmem
                refine ⟨t, h, p, base64.EncodeToString (gz.compress b), sg, rfl, hparts, ?_⟩
                rw [← hok]
                exact strings.Split_Join3 '.' h _ sg (hmem h (by simp))
                  (base64.dot_not_mem_EncodeToString _) (hmem sg (by simp))
      · rw [if_pos hlen] at hok
        simp at hok

/-- Witness for C5: the token `h.QQ.s` through the stored stream format. -/
theorem C5_envelope_non_interference_witness :
    ∃ t h p q sg, (constCodec "h.QQ.s".toList).Encode () = .ok t ∧
      strings.Split t '.' = [h, p, sg] ∧ strings.Split "h.H4tB.s".toList '.' = [h, q, sg] :=
  C5_envelope_non_interference (constCodec "h.QQ.s".toList) storedGzip ()
    "h.H4tB.s".toList (by decide)

/-! ## The bootstrap `New` -/

namespace samlsp

theorem New_eq (env : Env) (opts : Options) :
    New env opts =
      match opts.IDPMetadataURL with
      | none => ⟨.ok (assembled env opts), []⟩
      | some idpURL =>
          match env.NewRequest "GET" (env.URLString idpURL) with
          | .error err => ⟨.error err, []⟩
          | .ok req =>
              fetchLoop env (client env opts) (withUserAgent req) (env.URLString idpURL)
                (assembled env opts) 12 0 [] := rfl

/-- Failed attempts while `i ≤ 10` are retried: `k` of them add their effects
and leave the loop at iteration `i + k`. -/
theorem fetchLoop_retry (env : Env) (c : http.Client) (req : http.Request) (idpURL : String)
    (m : Middleware) (errs : Nat → String) (k : Nat) :
    ∀ (fuel i : Nat) (events : List Event),
      (∀ n, i ≤ n → n < i + k → fetch (c n req) = .error (errs n)) → i + k ≤ 11 → k ≤ fuel →
      fetchLoop env c req idpURL m fuel i events =
        fetchLoop env c req idpURL m (fuel - k) (i + k)
          (events ++ retryEvents req idpURL ((List.range' i k).map errs)) := by
  induction k with
  | zero => intro fuel i events _ _ _; simp [retryEvents]
  | succ k ih =>
      intro fuel i events hfail hi hfuel
      obtain ⟨f, rfl⟩ : ∃ f, fuel = f + 1 := ⟨fuel - 1, by omega⟩
      have h0 := hfail i (le_refl _) (by omega)
      rw [fetchLoop, h0]
      simp only []
      rw [if_neg (by omega)]
      rw [ih f (i + 1) _ (fun n h1 h2 => hfail n (by omega) (by omega)) (by omega) (by omega)]
      have e1 : f + 1 - (k + 1) = f - k := by omega
      have e2 : i + 1 + k = i + (k + 1) := by omega
      rw [e1, e2]
      simp [List.range'_succ, retryEvents]

theorem fetchLoop_ok (env : Env) (c : http.Client) (req : http.Request) (idpURL : String)
    (m : Middleware) (fuel i : Nat) (events : List Event) (data : Bytes)
    (h : fetch (c i req) = .ok data) :
    fetchLoop env c req idpURL m (fuel + 1) i events =
      ⟨match resolveEntity env data with
        | .error err => .error err
        | .ok entity => .ok (setIDPMetadata m entity),
       events ++ [.Do req]⟩ := by
  rw [fetchLoop, h]
  simp only []
  cases resolveEntity env data <;> rfl

theorem fetchLoop_give_up (env : Env) (c : http.Client) (req : http.Request) (idpURL : String)
    (m : Middleware) (fuel i : Nat) (events : List Event) (err : String)
    (h : fetch (c i req) = .error err) (hi : i > 10) :
    fetchLoop env c req idpURL m (fuel + 1) i events = ⟨.error err, events ++ [.Do req]⟩ := by
  rw [fetchLoop, h]
  simp only []
  rw [if_pos hi]

theorem attempts_append (a b : List Event) : attempts (a ++ b) = attempts a + attempts b := by
  simp [attempts]

theorem attempts_retryEvents (req : http.Request) (idpURL : String) (errs : List String) :
    attempts (retryEvents req idpURL errs) = errs.length := by
  induction errs with
  | nil => rfl
  | cons e rest ih =>
      simp only [attempts, retryEvents, List.filter, List.length_cons] at ih ⊢
      omega

theorem sleeps_retryEvents (req : http.Request) (idpURL : String) (errs : List String)
    (tail : List Event) :
    sleeps (retryEvents req idpURL errs ++ tail) =
      List.replicate errs.length (5 * time.Second) ++ sleeps tail := by
  induction errs with
  | nil => simp [retryEvents]
  | cons e rest ih =>
      simp only [retryEvents, List.cons_append, sleeps, List.length_cons,
        List.replicate_succ]
      exact congrArg _ ih

/-- The run of `New` when the first `k ≤ 11` attempts fail and the next one
fetches `data`. -/
theorem New_of_fetch (env : Env) (opts : Options) (idpURL : url.URL) (req : http.Request)
    (errs : Nat → String) (k : Nat) (data : Bytes)
    (hurl : opts.IDPMetadataURL = some idpURL)
    (hreq : env.NewRequest "GET" (env.URLString idpURL) = .ok req)
    (hk : k ≤ 11)
    (hfail : ∀ n, n < k → fetch (client env opts n (withUserAgent req)) = .error (errs n))
    (hok : fetch (client env opts k (withUserAgent req)) = .ok data) :
    New env opts =
      ⟨match resolveEntity env data with
        | .error err => .error err
        | .ok entity => .ok (setIDPMetadata (assembled env opts) entity),
       retryEvents (withUserAgent req) (env.URLString idpURL) ((List.range k).map errs) ++
         [.Do (withUserAgent req)]⟩ := by
  rw [New_eq, hurl]
  simp only [hreq]
  rw [fetchLoop_retry env (client env opts) (withUserAgent req) (env.URLString idpURL)
    (assembled env opts) errs k 12 0 [] (fun n _ h2 => hfail n (by omega)) (by omega)
    (by omega)]
  obtain ⟨f, hf⟩ : ∃ f, 12 - k = f + 1 := ⟨11 - k, by omega⟩
  rw [hf, Nat.zero_add, fetchLoop_ok env _ _ _ _ f k _ data hok, List.nil_append,
    List.range_eq_range']

/-- The run of `New` when every one of the attempts 0 to 11 fails. -/
theorem New_of_failures (env : Env) (opts : Options) (idpURL : url.URL) (req : http.Request)
    (errs : Nat → String)
    (hurl : opts.IDPMetadataURL = some idpURL)
    (hreq : env.NewRequest "GET" (env.URLString idpURL) = .ok req)
    (hfail : ∀ n, n ≤ 11 → fetch (client env opts n (withUserAgent req)) = .error (errs n)) :
    New env opts =
      ⟨.error (errs 11),
       retryEvents (withUserAgent req) (env.URLString idpURL) ((List.range 11).map errs) ++
         [.Do (withUserAgent req)]⟩ := by
  rw [New_eq, hurl]
  simp only [hreq]
  rw [fetchLoop_retry env (client env opts) (withUserAgent req) (env.URLString idpURL)
    (assembled env opts) errs 11 12 0 [] (fun n _ h2 => hfail n (by omega)) (by omega)
    (by omega)]
  rw [show 12 - 11 = 0 + 1 from rfl, Nat.zero_add,
    fetchLoop_give_up env _ _ _ _ 0 11 _ (errs 11) (hfail 11 (le_refl _)) (by omega),
    List.nil_append, List.range_eq_range']

end samlsp

namespace samlsp

theorem selectLoop_eq (es : List saml.EntityDescriptor) :
    ∀ st : saml.EntityDescriptor × Option String,
      selectLoop es st =
        match (es.filter hasIDPSSO).getLast? with
        | some e => (e, none)
        | none => st := by
  induction es with
  | nil => intro st; rfl
  | cons e es ih =>
      intro st
      by_cases he : e.IDPSSODescriptors.length > 0
      · have hq : hasIDPSSO e = true := by simp [hasIDPSSO, he]
        rw [selectLoop, if_pos he, ih, List.filter_cons_of_pos hq]
        cases hf : List.filter hasIDPSSO es with
        | nil => rfl
        | cons a l =>
            rw [List.getLast?_cons_cons, List.getLast?_eq_getLast (a :: l) (List.cons_ne_nil a l)]
      · have hq : ¬ hasIDPSSO e = true := by simp [hasIDPSSO, he]
        rw [selectLoop, if_neg he, ih, List.filter_cons_of_neg hq]

/-- On a collection document the entity resolved is the last one with an
`IDPSSODescriptor`, and without any the error is `no entity found`. -/
theorem resolveEntity_collection (env : Env) (data : Bytes) (leftover : saml.EntityDescriptor)
    (es : List saml.EntityDescriptor)
    (h1 : env.UnmarshalEntity data = (leftover, some expectedEntityDescriptor))
    (h2 : env.UnmarshalEntities data = (⟨es⟩, none)) :
    resolveEntity env data =
      match (es.filter hasIDPSSO).getLast? with
      | some e => .ok e
      | none => .error "no entity found with IDPSSODescriptor" := by
  simp only [resolveEntity, h1, h2, if_true, selectLoop_eq]
  cases (es.filter hasIDPSSO).getLast? <;> rfl

theorem find?_of_filter_singleton (es : List saml.EntityDescriptor) (e : saml.EntityDescriptor)
    (h : es.filter hasIDPSSO = [e]) : es.find? hasIDPSSO = some e := by
  induction es with
  | nil => simp at h
  | cons a es ih =>
      by_cases ha : hasIDPSSO a = true
      · rw [List.filter_cons_of_pos ha] at h
        rw [List.find?_cons_of_pos _ ha]
        exact congrArg some (List.cons.inj h).1
      · rw [List.filter_cons_of_neg ha] at h
        rw [List.find?_cons_of_neg _ ha]
        exact ih h

end samlsp

namespace net

theorem last_eq_none (s : Str) (b : Char) (h : b ∉ s) : last s b = none := by
  have hn : s.reverse.indexOf? b = none := by
    rw [List.indexOf?_eq_none_iff]
    intro x hx hxb
    have hxe : x = b := by simpa using hxb
    exact h (hxe ▸ List.mem_reverse.1 hx)
  simp [last, hn]

theorem last_lt_length (s : Str) (b : Char) (i : Nat) (h : last s b = some i) :
    i < s.length := by
  unfold last at h
  cases hr : s.reverse.indexOf? b with
  | none => rw [hr] at h; simp at h
  | some r =>
      rw [hr] at h
      simp only [Option.some.injEq] at h
      have hpos : 0 < s.length := by
        cases s with
        | nil => simp at hr
        | cons a t => simp
      omega

theorem indexOf?_append_cons (c : Char) (x y : List Char) (h : c ∉ x) :
    (x ++ c :: y).indexOf? c = some x.length := by
  induction x with
  | nil => simp [List.indexOf?_cons]
  | cons a t ih =>
      have hac : a ≠ c := fun e => h (by simp [e])
      have ht : c ∉ t := fun e => h (by simp [e])
      simp [List.indexOf?_cons, hac, ih ht]

theorem indexOf?_isSome_iff (c : Char) (s : List Char) :
    (s.indexOf? c).isSome = true ↔ c ∈ s := by
  induction s with
  | nil => simp
  | cons a t ih =>
      by_cases hac : a = c
      · simp [List.indexOf?_cons, hac]
      · have : c ≠ a := fun e => hac e.symm
        simp [List.indexOf?_cons, hac, this, ih]

theorem indexOf?_eq_some_split (c : Char) (s : List Char) :
    ∀ e, s.indexOf? c = some e → ∃ x y, s = x ++ c :: y ∧ c ∉ x ∧ x.length = e := by
  induction s with
  | nil => intro e h; simp at h
  | cons a t ih =>
      intro e h
      by_cases hac : a = c
      · subst hac
        simp [List.indexOf?_cons] at h
        exact ⟨[], t, by simp, by simp, by simpa using h⟩
      · simp [List.indexOf?_cons, hac] at h
        obtain ⟨e2, he2, rfl⟩ := h
        obtain ⟨x, y, hs, hx, hl⟩ := ih e2 he2
        refine ⟨a :: x, y, by simp [hs], ?_, by simp [hl]⟩
        simp only [List.mem_cons, not_or]
        exact ⟨fun e => hac e.symm, hx⟩

theorem drop_succ_append_cons (c : Char) (x y : Str) :
    (x ++ c :: y).drop (x.length + 1) = y := by
  induction x with
  | nil => rfl
  | cons a t ih => simp [ih]

theorem last_append_cons (c : Char) (x y : Str) (h : c ∉ y) :
    last (x ++ c :: y) c = some x.length := by
  have hr : (x ++ c :: y).reverse = y.reverse ++ c :: x.reverse := by simp
  have hy : c ∉ y.reverse := fun e => h (List.mem_reverse.1 e)
  unfold last
  rw [hr, indexOf?_append_cons c _ _ hy]
  simp only [List.length_reverse, List.length_append, List.length_cons, Option.some.injEq]
  omega

theorem last_eq_some_split (c : Char) (s : Str) (i : Nat) (h : last s c = some i) :
    ∃ x y, s = x ++ c :: y ∧ c ∉ y ∧ x.length = i := by
  unfold last at h
  cases hr : s.reverse.indexOf? c with
  | none => rw [hr] at h; simp at h
  | some r =>
      rw [hr] at h
      simp only [Option.some.injEq] at h
      obtain ⟨u, v, hs, hu, hl⟩ := indexOf?_eq_some_split c _ r hr
      have hs2 : s = v.reverse ++ c :: u.reverse := by
        have := congrArg List.reverse hs
        simpa using this
      refine ⟨v.reverse, u.reverse, hs2, fun e => hu (List.mem_reverse.1 e), ?_⟩
      have hlen := congrArg List.length hs2
      simp only [List.length_append, List.length_cons, List.length_reverse] at hlen ⊢
      omega

/-- Without a colon `SplitHostPort` reports a missing port. -/
theorem SplitHostPort_no_colon (hostport : Str) (h : ':' ∉ hostport) :
    SplitHostPort hostport = .error (addrErr hostport "missing port in address") := by
  simp [SplitHostPort, last_eq_none hostport ':' h]

/-- The host that `SplitHostPort` returns is shorter than its argument. -/
theorem SplitHostPort_host_length (hostport host port : Str)
    (h : SplitHostPort hostport = .ok (host, port)) : host.length < hostport.length := by
  unfold SplitHostPort at h
  cases hl : last hostport ':' with
  | none => rw [hl] at h; simp at h
  | some i =>
      have hi := last_lt_length hostport ':' i hl
      rw [hl] at h
      simp only [] at h
      split at h
      · split at h
        · simp at h
        · rename_i end_ hend
          split at h
          · simp at h
          · split at h
            · split at h
              · simp at h
              · split at h
                · simp at h
                · simp only [Except.ok.injEq, Prod.mk.injEq] at h
                  rw [← h.1]
                  simp only [List.length_drop, List.length_take]
                  omega
            · split at h <;> simp at h
      · split at h
        · simp at h
        · split at h
          · simp at h
          · split at h
            · simp at h
            · simp only [Except.ok.injEq, Prod.mk.injEq] at h
              rw [← h.1]
              simp only [List.length_take]
              omega

/-- An authority of one of the two forms is split into its host and port. -/
theorem SplitHostPort_of_joined (hostport host port : Str)
    (h : JoinedHostPort hostport host port) : SplitHostPort hostport = .ok (host, port) := by
  obtain ⟨hp1, hp2, hp3, hh2, hh3, hform⟩ := h
  rcases hform with ⟨rfl, hh1⟩ | rfl
  · have hlast := last_append_cons ':' host port hp1
    have hhead : (host ++ ':' :: port).head? ≠ some '[' := by
      cases host with
      | nil => simp
      | cons a t =>
          simp only [List.cons_append, List.head?_cons, ne_eq, Option.some.injEq]
          intro e
          exact hh2 (by simp [e])
    have hc : (IndexByteString host ':').isSome = false := by
      rw [Bool.eq_false_iff, ne_eq, IndexByteString, indexOf?_isSome_iff]; exact hh1
    have hb1 : (IndexByteString (host ++ ':' :: port) '[').isSome = false := by
      rw [Bool.eq_false_iff, ne_eq, IndexByteString, indexOf?_isSome_iff]
      simp [hh2, hp2]
    have hb2 : (IndexByteString (host ++ ':' :: port) ']').isSome = false := by
      rw [Bool.eq_false_iff, ne_eq, IndexByteString, indexOf?_isSome_iff]
      simp [hh3, hp3]
    unfold SplitHostPort
    rw [hlast]
    simp only []
    rw [if_neg hhead, List.take_left, hc]
    simp only [List.drop_zero, hb1, hb2, Bool.false_eq_true, if_false]
    rw [drop_succ_append_cons]
  · have hp1b : ':' ∉ port := hp1
    have hlast : last ('[' :: (host ++ ']' :: ':' :: port)) ':' = some (host.length + 2) := by
      have e : '[' :: (host ++ ']' :: ':' :: port) = ('[' :: (host ++ [']'])) ++ ':' :: port := by
        simp
      rw [e, last_append_cons ':' _ port hp1]
      simp
    have hend : IndexByteString ('[' :: (host ++ ']' :: ':' :: port)) ']'
        = some (host.length + 1) := by
      have e : '[' :: (host ++ ']' :: ':' :: port) = ('[' :: host) ++ ']' :: (':' :: port) := by
        simp
      have hn : ']' ∉ '[' :: host := by
        simp only [List.mem_cons, not_or]
        exact ⟨by decide, hh3⟩
      rw [e, IndexByteString, indexOf?_append_cons ']' _ _ hn]
      simp
    have hb1 : (IndexByteString (host ++ ']' :: ':' :: port) '[').isSome = false := by
      rw [Bool.eq_false_iff, ne_eq, IndexByteString, indexOf?_isSome_iff]
      simp [hh2, hp2]
    have hb2 : (IndexByteString (':' :: port) ']').isSome = false := by
      rw [Bool.eq_false_iff, ne_eq, IndexByteString, indexOf?_isSome_iff]
      simp [hp3]
    have hd1 : List.drop (host.length + 1 + 1) ('[' :: (host ++ ']' :: ':' :: port))
        = ':' :: port := by
      have := drop_succ_append_cons ']' host (':' :: port)
      simp [this]
    have hd2 : List.drop (host.length + 2 + 1) ('[' :: (host ++ ']' :: ':' :: port))
        = port := by
      simp
    have ht : List.drop 1 (List.take (host.length + 1) ('[' :: (host ++ ']' :: ':' :: port)))
        = host := by
      simp
    unfold SplitHostPort
    rw [hlast]
    simp only []
    rw [if_pos (by simp), hend]
    simp only []
    rw [if_neg (by simp), if_pos trivial, hd1, hd2, ht]
    simp only [List.drop_one, List.tail_cons, hb1, hb2, Bool.false_eq_true, if_false]

/-- Only authorities of one of the two forms are split. -/
theorem joined_of_SplitHostPort (hostport host port : Str)
    (h : SplitHostPort hostport = .ok (host, port)) : JoinedHostPort hostport host port := by
  unfold SplitHostPort at h
  cases hl : last hostport ':' with
  | none => rw [hl] at h; simp at h
  | some i =>
      rw [hl] at h
      simp only [] at h
      obtain ⟨x, y, rfl, hy, rfl⟩ := last_eq_some_split ':' hostport i hl
      by_cases hhead : (x ++ ':' :: y).head? = some '['
      · rw [if_pos hhead] at h
        cases he : IndexByteString (x ++ ':' :: y) ']' with
        | none => rw [he] at h; simp at h
        | some e =>
            rw [he] at h
            simp only [] at h
            obtain ⟨u, v, hs, hu, rfl⟩ := indexOf?_eq_some_split ']' _ e he
            by_cases h1 : u.length + 1 = (x ++ ':' :: y).length
            · rw [if_pos h1] at h; simp at h
            · rw [if_neg h1] at h
              by_cases h2 : u.length + 1 = x.length
              · rw [if_pos h2] at h
                have hs2 : x ++ ':' :: y = (u ++ [']']) ++ v := by simpa using hs
                obtain ⟨hx, hv⟩ := List.append_inj hs2 (by simp [h2])
                subst hx
                subst hv
                cases u with
                | nil => simp at hhead
                | cons a w =>
                    have ha : a = '[' := by simpa using hhead
                    subst ha
                    by_cases h3 : (IndexByteString
                        (List.drop 1 ('[' :: w ++ [']'] ++ ':' :: y)) '[').isSome = true
                    · rw [if_pos h3] at h; simp at h
                    · rw [if_neg h3] at h
                      by_cases h4 : (IndexByteString
                          (List.drop (('[' :: w).length + 1) ('[' :: w ++ [']'] ++ ':' :: y))
                          ']').isSome = true
                      · rw [if_pos h4] at h; simp at h
                      · rw [if_neg h4] at h
                        simp only [Except.ok.injEq, Prod.mk.injEq] at h
                        obtain ⟨hhost, hport⟩ := h
                        rw [IndexByteString, indexOf?_isSome_iff] at h3 h4
                        have hd : List.drop (('[' :: w).length + 1)
                            ('[' :: w ++ [']'] ++ ':' :: y) = ':' :: y := by
                          simp
                        rw [hd] at h4
                        have hport2 : port = y := by
                          rw [← hport]
                          simp
                        have hhost2 : host = w := by
                          rw [← hhost]
                          simp
                        subst hport2
                        subst hhost2
                        simp only [List.mem_cons, not_or] at hu h4
                        simp only [List.drop_one, List.cons_append, List.tail_cons,
                          List.append_assoc, List.mem_append, List.mem_cons, not_or,
                          List.singleton_append] at h3
                        refine ⟨hy, h3.2.2.2.2, h4.2, h3.1, hu.2, Or.inr ?_⟩
                        simp
              · rw [if_neg h2] at h
                split at h <;> simp at h
      · rw [if_neg hhead] at h
        simp only [List.take_left, List.drop_zero] at h
        by_cases h1 : (IndexByteString x ':').isSome = true
        · rw [if_pos h1] at h; simp at h
        · rw [if_neg h1] at h
          by_cases h3 : (IndexByteString (x ++ ':' :: y) '[').isSome = true
          · rw [if_pos h3] at h; simp at h
          · rw [if_neg h3] at h
            by_cases h4 : (IndexByteString (x ++ ':' :: y) ']').isSome = true
            · rw [if_pos h4] at h; simp at h
            · rw [if_neg h4] at h
              simp only [Except.ok.injEq, Prod.mk.injEq, drop_succ_append_cons] at h
              obtain ⟨rfl, rfl⟩ := h
              rw [IndexByteString, indexOf?_isSome_iff] at h1 h3 h4
              simp only [List.mem_append, List.mem_cons, not_or] at h3 h4
              exact ⟨hy, h3.2.2, h4.2.2, h3.1, h4.1, Or.inl ⟨rfl, h1⟩⟩

end net

namespace samlsp

/-- A middleware returned by the fetch loop is the one it started from with
`IDPMetadata` assigned. -/
theorem fetchLoop_result_ok (env : Env) (c : http.Client) (req : http.Request)
    (idpURL : String) (m : Middleware) :
    ∀ (fuel i : Nat) (events : List Event) (m2 : Middleware),
      (fetchLoop env c req idpURL m fuel i events).result = .ok m2 →
      ∃ entity, m2 = setIDPMetadata m entity := by
  intro fuel
  induction fuel with
  | zero => intro i events m2 h; simp [fetchLoop] at h
  | succ fuel ih =>
      intro i events m2 h
      rw [fetchLoop] at h
      cases hf : fetch (c i req) with
      | error err =>
          rw [hf] at h
          simp only [] at h
          by_cases hi : i > 10
          · rw [if_pos hi] at h; simp at h
          · rw [if_neg hi] at h; exact ih _ _ _ h
      | ok data =>
          rw [hf] at h
          simp only [] at h
          cases hr : resolveEntity env data with
          | error err => rw [hr] at h; simp at h
          | ok entity =>
              rw [hr] at h
              simp only [Result.ok.injEq] at h
              exact ⟨entity, h.symm⟩

/-- The fetch loop never runs out of iterations: started at `i` with at least
`12 - i` of them (and at least one), it returns a value or an error. -/
theorem fetchLoop_result_ne_panic (env : Env) (c : http.Client) (req : http.Request)
    (idpURL : String) (m : Middleware) :
    ∀ (fuel i : Nat) (events : List Event) (v : String),
      12 ≤ i + fuel → 1 ≤ fuel →
      (fetchLoop env c req idpURL m fuel i events).result ≠ .panic v := by
  intro fuel
  induction fuel with
  | zero => intro i events v _ h; exact absurd h (by decide)
  | succ fuel ih =>
      intro i events v hi _ h
      rw [fetchLoop] at h
      cases hf : fetch (c i req) with
      | error err =>
          rw [hf] at h
          simp only [] at h
          by_cases hgt : i > 10
          · rw [if_pos hgt] at h; simp at h
          · rw [if_neg hgt] at h
            exact ih _ _ _ (by omega) (by omega) h
      | ok data =>
          rw [hf] at h
          simp only [] at h
          cases hr : resolveEntity env data with
          | error err => rw [hr] at h; simp at h
          | ok entity => rw [hr] at h; simp at h

/-- Totality of `New`: every call returns a middleware or an error; the
`panic("unreachable")` after the loop is never reached. -/
theorem New_result_ne_panic (env : Env) (opts : Options) (v : String) :
    (New env opts).result ≠ .panic v := by
  rw [New_eq]
  cases hu : opts.IDPMetadataURL with
  | none => simp
  | some idpURL =>
      simp only []
      cases hr : env.NewRequest "GET" (env.URLString idpURL) with
      | error err => simp
      | ok req =>
          exact fetchLoop_result_ne_panic env _ _ _ _ 12 0 [] v (by decide) (by decide)

/-- A middleware returned by `New` carries the cookie store built from the options. -/
theorem New_cookieStore (env : Env) (opts : Options) (m : Middleware)
    (h : (New env opts).result = .ok m) :
    m.ClientState = some ⟨cookieName env opts, cookieDomain opts, opts.CookieSecure⟩ ∧
    m.ClientToken = some ⟨cookieName env opts, cookieDomain opts, opts.CookieSecure⟩ := by
  rw [New_eq] at h
  cases hu : opts.IDPMetadataURL with
  | none =>
      rw [hu] at h
      simp only [Result.ok.injEq] at h
      rw [← h]
      exact ⟨rfl, rfl⟩
  | some idpURL =>
      rw [hu] at h
      simp only [] at h
      cases hr : env.NewRequest "GET" (env.URLString idpURL) with
      | error err => rw [hr] at h; simp at h
      | ok req =>
          rw [hr] at h
          obtain ⟨entity, hm⟩ := fetchLoop_result_ok env _ _ _ _ _ _ _ _ h
          rw [hm]
          exact ⟨rfl, rfl⟩

end samlsp

/-! ## Claims about the bootstrap -/

section BootstrapClaims

open samlsp

/-- C6, as stated, fails: with the metadata URL set and a client whose every
call fails, `New` returns the error after 12 requests, not 11. -/
theorem C6_counterexample :
    (stubOptions "sp.example.com" failingClient).IDPMetadataURL.isSome = true ∧
    (∀ n r, fetch (failingClient n r) = .error "connection refused") ∧
    (New stubEnv (stubOptions "sp.example.com" failingClient)).result
      = .error "connection refused" ∧
    attempts (New stubEnv (stubOptions "sp.example.com" failingClient)).events = 12 ∧
    attempts (New stubEnv (stubOptions "sp.example.com" failingClient)).events ≠ 11 :=
  ⟨by decide, fun _ _ => rfl, by decide, by decide, by decide⟩

/-- C6, amended. Retry bound: when the metadata URL is set, the request can be
built and every attempt fails, `New` returns no middleware and the error of the
last attempt after exactly 12 requests (the first and 11 retries), each but the
last followed by a log line and a 5 second sleep. -/
theorem C6_retry_bound (env : Env) (opts : Options) (idpURL : url.URL)
    (req : http.Request) (errs : Nat → String)
    (hurl : opts.IDPMetadataURL = some idpURL)
    (hreq : env.NewRequest "GET" (env.URLString idpURL) = .ok req)
    (hfail : ∀ n, fetch (client env opts n (withUserAgent req)) = .error (errs n)) :
    (New env opts).result = .error (errs 11) ∧
    (New env opts).events =
      retryEvents (withUserAgent req) (env.URLString idpURL) ((List.range 11).map errs) ++
        [.Do (withUserAgent req)] ∧
    attempts (New env opts).events = 12 := by
  rw [New_of_failures env opts idpURL req errs hurl hreq (fun n _ => hfail n)]
  refine ⟨rfl, rfl, ?_⟩
  simp only [attempts_append, attempts_retryEvents, List.length_map, List.length_range]
  rfl

/-- Witness for C6 amended: the always failing client. -/
theorem C6_retry_bound_witness :
    (New stubEnv (stubOptions "sp.example.com" failingClient)).result
      = .error "connection refused" ∧
    (New stubEnv (stubOptions "sp.example.com" failingClient)).events =
      retryEvents (withUserAgent ⟨"GET", "https://idp.example.com/metadata", []⟩)
        (stubEnv.URLString ⟨"https", "idp.example.com".toList, "/metadata"⟩)
        ((List.range 11).map fun _ => "connection refused") ++
        [.Do (withUserAgent ⟨"GET", "https://idp.example.com/metadata", []⟩)] ∧
    attempts (New stubEnv (stubOptions "sp.example.com" failingClient)).events = 12 :=
  C6_retry_bound stubEnv (stubOptions "sp.example.com" failingClient)
    ⟨"https", "idp.example.com".toList, "/metadata"⟩
    ⟨"GET", "https://idp.example.com/metadata", []⟩ (fun _ => "connection refused")
    rfl (by decide) (fun _ => rfl)

/-- C7, as stated, fails: for the collection `a`, `b`, `c` in which `a` and `c`
have an `IDPSSODescriptor`, the first such entity is `a` but `New` resolves
`IDPMetadata` to `c`. -/
theorem C7_counterexample :
    stubEnv.UnmarshalEntity [2] = (⟨"", []⟩, some expectedEntityDescriptor) ∧
    stubEnv.UnmarshalEntities [2]
      = (⟨[⟨"a", [⟨"ssoA"⟩]⟩, ⟨"b", []⟩, ⟨"c", [⟨"ssoC"⟩]⟩]⟩, none) ∧
    (stubEnv.UnmarshalEntities [2]).1.EntityDescriptors.find? hasIDPSSO
      = some ⟨"a", [⟨"ssoA"⟩]⟩ ∧
    resolvedIDP (New stubEnv (stubOptions "sp.example.com" (recoveringClient 0 [2])))
      = some ⟨"c", [⟨"ssoC"⟩]⟩ ∧
    resolvedIDP (New stubEnv (stubOptions "sp.example.com" (recoveringClient 0 [2])))
      ≠ some ⟨"a", [⟨"ssoA"⟩]⟩ :=
  ⟨by decide, by decide, by decide, by decide, by decide⟩

/-- C7, amended. Schema fallback selection: when the fetched document is an
`EntitiesDescriptor` collection, `New` resolves `IDPMetadata` to the last
entity in document order that has an `IDPSSODescriptor`, which is the first
one when exactly one entity qualifies; when none qualifies, `New` fails with
`no entity found with IDPSSODescriptor`. -/
theorem C7_schema_fallback_selection (env : Env) (opts : Options) (idpURL : url.URL)
    (req : http.Request) (errs : Nat → String) (k : Nat) (data : Bytes)
    (leftover : saml.EntityDescriptor) (es : List saml.EntityDescriptor)
    (hurl : opts.IDPMetadataURL = some idpURL)
    (hreq : env.NewRequest "GET" (env.URLString idpURL) = .ok req)
    (hk : k ≤ 11)
    (hfail : ∀ n, n < k → fetch (client env opts n (withUserAgent req)) = .error (errs n))
    (hok : fetch (client env opts k (withUserAgent req)) = .ok data)
    (h1 : env.UnmarshalEntity data = (leftover, some expectedEntityDescriptor))
    (h2 : env.UnmarshalEntities data = (⟨es⟩, none)) :
    (New env opts).result =
      (match (es.filter hasIDPSSO).getLast? with
        | some e => .ok (setIDPMetadata (assembled env opts) e)
        | none => .error "no entity found with IDPSSODescriptor") ∧
    (∀ e, es.filter hasIDPSSO = [e] →
      es.find? hasIDPSSO = some e ∧ resolvedIDP (New env opts) = some e) := by
  have hnew := New_of_fetch env opts idpURL req errs k data hurl hreq hk hfail hok
  rw [resolveEntity_collection env data leftover es h1 h2] at hnew
  rw [hnew]
  refine ⟨?_, ?_⟩
  · cases (es.filter hasIDPSSO).getLast? <;> rfl
  · intro e he
    refine ⟨find?_of_filter_singleton es e he, ?_⟩
    simp [he, resolvedIDP, setIDPMetadata]

/-- Witness for C7 amended: the collection `a`, `b`, `c` fetched at the first attempt. -/
theorem C7_schema_fallback_selection_witness :
    (New stubEnv (stubOptions "sp.example.com" (recoveringClient 0 [2]))).result =
      (match (List.filter hasIDPSSO
          [⟨"a", [⟨"ssoA"⟩]⟩, ⟨"b", []⟩, ⟨"c", [⟨"ssoC"⟩]⟩]).getLast? with
        | some e => .ok (setIDPMetadata
            (assembled stubEnv (stubOptions "sp.example.com" (recoveringClient 0 [2]))) e)
        | none => .error "no entity found with IDPSSODescriptor") ∧
    (∀ e, List.filter hasIDPSSO [⟨"a", [⟨"ssoA"⟩]⟩, ⟨"b", []⟩, ⟨"c", [⟨"ssoC"⟩]⟩] = [e] →
      List.find? hasIDPSSO [⟨"a", [⟨"ssoA"⟩]⟩, ⟨"b", []⟩, ⟨"c", [⟨"ssoC"⟩]⟩] = some e ∧
      resolvedIDP (New stubEnv (stubOptions "sp.example.com" (recoveringClient 0 [2])))
        = some e) :=
  C7_schema_fallback_selection stubEnv (stubOptions "sp.example.com" (recoveringClient 0 [2]))
    ⟨"https", "idp.example.com".toList, "/metadata"⟩
    ⟨"GET", "https://idp.example.com/metadata", []⟩ (fun _ => "") 0 [2] ⟨"", []⟩
    [⟨"a", [⟨"ssoA"⟩]⟩, ⟨"b", []⟩, ⟨"c", [⟨"ssoC"⟩]⟩]
    rfl (by decide) (by decide) (fun n hn => absurd hn (Nat.not_lt_zero n)) (by decide)
    (by decide) (by decide)

/-- C8. Parse failures are not retried: when an attempt fetches a body that does
not resolve to an entity, `New` returns no middleware and that error, and the
request of that attempt is its last effect: no further request, no sleep. -/
theorem C8_parse_failure_not_retried (env : Env) (opts : Options) (idpURL : url.URL)
    (req : http.Request) (errs : Nat → String) (k : Nat) (data : Bytes) (err : String)
    (hurl : opts.IDPMetadataURL = some idpURL)
    (hreq : env.NewRequest "GET" (env.URLString idpURL) = .ok req)
    (hk : k ≤ 11)
    (hfail : ∀ n, n < k → fetch (client env opts n (withUserAgent req)) = .error (errs n))
    (hok : fetch (client env opts k (withUserAgent req)) = .ok data)
    (hparse : resolveEntity env data = .error err) :
    (New env opts).result = .error err ∧
    (New env opts).events =
      retryEvents (withUserAgent req) (env.URLString idpURL) ((List.range k).map errs) ++
        [.Do (withUserAgent req)] ∧
    attempts (New env opts).events = k + 1 ∧
    sleeps (New env opts).events = List.replicate k (5 * time.Second) := by
  rw [New_of_fetch env opts idpURL req errs k data hurl hreq hk hfail hok, hparse]
  refine ⟨rfl, rfl, ?_, ?_⟩
  · simp only [attempts_append, attempts_retryEvents, List.length_map, List.length_range]
    rfl
  · simp [sleeps_retryEvents, sleeps]

/-- Witness for C8: two failed attempts, then a collection without any
`IDPSSODescriptor`. -/
theorem C8_parse_failure_not_retried_witness :
    (New stubEnv (stubOptions "sp.example.com" (recoveringClient 2 [3]))).result
      = .error "no entity found with IDPSSODescriptor" ∧
    (New stubEnv (stubOptions "sp.example.com" (recoveringClient 2 [3]))).events =
      retryEvents (withUserAgent ⟨"GET", "https://idp.example.com/metadata", []⟩)
        (stubEnv.URLString ⟨"https", "idp.example.com".toList, "/metadata"⟩)
        ((List.range 2).map fun _ => "503 Service Unavailable") ++
        [.Do (withUserAgent ⟨"GET", "https://idp.example.com/metadata", []⟩)] ∧
    attempts (New stubEnv (stubOptions "sp.example.com" (recoveringClient 2 [3]))).events
      = 2 + 1 ∧
    sleeps (New stubEnv (stubOptions "sp.example.com" (recoveringClient 2 [3]))).events
      = List.replicate 2 (5 * time.Second) :=
  C8_parse_failure_not_retried stubEnv (stubOptions "sp.example.com" (recoveringClient 2 [3]))
    ⟨"https", "idp.example.com".toList, "/metadata"⟩
    ⟨"GET", "https://idp.example.com/metadata", []⟩ (fun _ => "503 Service Unavailable")
    2 [3] "no entity found with IDPSSODescriptor"
    rfl (by decide) (by decide)
    (fun n hn => by
      have h : n = 0 ∨ n = 1 := by omega
      rcases h with h | h <;> subst h <;> decide)
    (by decide) (by decide)

/-- C9. Recovery from transient failure: for every `k ≤ 11`, if the first `k`
attempts fail and attempt `k + 1` returns status 200 with a document that
decodes as a single `EntityDescriptor`, `New` succeeds with that entity as
`IDPMetadata`, after exactly `k + 1` requests and a 5 second sleep after each
failed one. -/
theorem C9_recovery (env : Env) (opts : Options) (idpURL : url.URL)
    (req : http.Request) (errs : Nat → String) (k : Nat) (data : Bytes)
    (entity : saml.EntityDescriptor)
    (hurl : opts.IDPMetadataURL = some idpURL)
    (hreq : env.NewRequest "GET" (env.URLString idpURL) = .ok req)
    (hk : k ≤ 11)
    (hfail : ∀ n, n < k → fetch (client env opts n (withUserAgent req)) = .error (errs n))
    (hok : fetch (client env opts k (withUserAgent req)) = .ok data)
    (hdoc : env.UnmarshalEntity data = (entity, none)) :
    (New env opts).result = .ok (setIDPMetadata (assembled env opts) entity) ∧
    resolvedIDP (New env opts) = some entity ∧
    (New env opts).events =
      retryEvents (withUserAgent req) (env.URLString idpURL) ((List.range k).map errs) ++
        [.Do (withUserAgent req)] ∧
    attempts (New env opts).events = k + 1 ∧
    sleeps (New env opts).events = List.replicate k (5 * time.Second) := by
  have hres : resolveEntity env data = .ok entity := by
    simp [resolveEntity, hdoc]
  rw [New_of_fetch env opts idpURL req errs k data hurl hreq hk hfail hok, hres]
  refine ⟨rfl, rfl, rfl, ?_, ?_⟩
  · simp only [attempts_append, attempts_retryEvents, List.length_map, List.length_range]
    rfl
  · simp [sleeps_retryEvents, sleeps]

/-- Witness for C9: `k = 3`, three answers 503 and then a single entity document. -/
theorem C9_recovery_witness :
    (New stubEnv (stubOptions "sp.example.com" (recoveringClient 3 [1]))).result
      = .ok (setIDPMetadata
          (assembled stubEnv (stubOptions "sp.example.com" (recoveringClient 3 [1])))
          ⟨"idp", [⟨"sso"⟩]⟩) ∧
    resolvedIDP (New stubEnv (stubOptions "sp.example.com" (recoveringClient 3 [1])))
      = some ⟨"idp", [⟨"sso"⟩]⟩ ∧
    (New stubEnv (stubOptions "sp.example.com" (recoveringClient 3 [1]))).events =
      retryEvents (withUserAgent ⟨"GET", "https://idp.example.com/metadata", []⟩)
        (stubEnv.URLString ⟨"https", "idp.example.com".toList, "/metadata"⟩)
        ((List.range 3).map fun _ => "503 Service Unavailable") ++
        [.Do (withUserAgent ⟨"GET", "https://idp.example.com/metadata", []⟩)] ∧
    attempts (New stubEnv (stubOptions "sp.example.com" (recoveringClient 3 [1]))).events
      = 3 + 1 ∧
    sleeps (New stubEnv (stubOptions "sp.example.com" (recoveringClient 3 [1]))).events
      = List.replicate 3 (5 * time.Second) :=
  C9_recovery stubEnv (stubOptions "sp.example.com" (recoveringClient 3 [1]))
    ⟨"https", "idp.example.com".toList, "/metadata"⟩
    ⟨"GET", "https://idp.example.com/metadata", []⟩ (fun _ => "503 Service Unavailable")
    3 [1] ⟨"idp", [⟨"sso"⟩]⟩
    rfl (by decide) (by decide)
    (fun n hn => by
      have h : n = 0 ∨ n = 1 ∨ n = 2 := by omega
      rcases h with h | h | h <;> subst h <;> decide)
    (by decide) (by decide)

/-- C10, as stated, fails: with `CookieDomain` unset, the authority `a:b:80`
has a port separator, its last colon before the port `80`, yet the cookie
store of the middleware `New` returns has the full authority, unchanged, as
`Domain`. -/
theorem C10_counterexample :
    (stubOptions "a:b:80" (recoveringClient 0 [1])).CookieDomain = [] ∧
    (stubOptions "a:b:80" (recoveringClient 0 [1])).URL.Host
      = "a:b".toList ++ ':' :: "80".toList ∧
    ':' ∈ (stubOptions "a:b:80" (recoveringClient 0 [1])).URL.Host ∧
    net.SplitHostPort "a:b:80".toList
      = .error "address a:b:80: too many colons in address" ∧
    cookieStoreDomain (New stubEnv (stubOptions "a:b:80" (recoveringClient 0 [1])))
      = some "a:b:80".toList :=
  ⟨by decide, by decide, by decide, by decide, by decide⟩

/-- C10, amended. Cookie domain default: the cookie store of the middleware
`New` returns has `Domain` equal to `Options.CookieDomain` when that is
non-empty; otherwise, for an authority `Options.URL.Host` of the form
`host:port` or `[host]:port`, it is `host`, the authority with its port and
any brackets removed, and it is the full authority unchanged exactly when the
authority has neither form, as whenever it contains no colon. -/
theorem C10_cookie_domain_default (env : Env) (opts : Options) :
    (∀ m, (New env opts).result = .ok m →
      m.ClientState = some ⟨cookieName env opts, cookieDomain opts, opts.CookieSecure⟩ ∧
      m.ClientToken = some ⟨cookieName env opts, cookieDomain opts, opts.CookieSecure⟩) ∧
    (opts.CookieDomain ≠ [] → cookieDomain opts = opts.CookieDomain) ∧
    (opts.CookieDomain = [] → ∀ host port,
      net.JoinedHostPort opts.URL.Host host port → cookieDomain opts = host) ∧
    (opts.CookieDomain = [] →
      (cookieDomain opts = opts.URL.Host ↔
        ¬ ∃ host port, net.JoinedHostPort opts.URL.Host host port)) ∧
    (opts.CookieDomain = [] → ':' ∉ opts.URL.Host → cookieDomain opts = opts.URL.Host) := by
  have hiff : opts.CookieDomain = [] →
      (cookieDomain opts = opts.URL.Host ↔
        ¬ ∃ host port, net.JoinedHostPort opts.URL.Host host port) := by
    intro h
    cases hs : net.SplitHostPort opts.URL.Host with
    | error err =>
        have hd : cookieDomain opts = opts.URL.Host := by simp [cookieDomain, h, hs]
        refine ⟨fun _ => ?_, fun _ => hd⟩
        rintro ⟨host, port, hj⟩
        rw [net.SplitHostPort_of_joined _ _ _ hj] at hs
        exact Except.noConfusion hs
    | ok hp =>
        obtain ⟨host, port⟩ := hp
        have hlen := net.SplitHostPort_host_length _ _ _ hs
        have hd : cookieDomain opts = host := by simp [cookieDomain, h, hs]
        constructor
        · intro he
          rw [hd] at he
          rw [he] at hlen
          exact absurd hlen (Nat.lt_irrefl _)
        · intro hn
          exact absurd ⟨host, port, net.joined_of_SplitHostPort _ _ _ hs⟩ hn
  refine ⟨fun m h => New_cookieStore env opts m h, ?_, ?_, hiff, ?_⟩
  · intro h
    simp [cookieDomain, h]
  · intro h host port hj
    simp [cookieDomain, h, net.SplitHostPort_of_joined _ _ _ hj]
  · intro h hc
    simp [cookieDomain, h, net.SplitHostPort_no_colon _ hc]

/-- Witness for C10 amended: the authorities `sp.example.com:8443` and
`[::1]:8080` give the domains `sp.example.com` and `::1`. -/
theorem C10_cookie_domain_default_witness :
    cookieDomain (stubOptions "sp.example.com:8443" failingClient) = "sp.example.com".toList ∧
    cookieDomain (stubOptions "[::1]:8080" failingClient) = "::1".toList :=
  ⟨(C10_cookie_domain_default stubEnv (stubOptions "sp.example.com:8443" failingClient)).2.2.1
      rfl "sp.example.com".toList "8443".toList
      ⟨by decide, by decide, by decide, by decide, by decide,
        Or.inl ⟨by decide, by decide⟩⟩,
   (C10_cookie_domain_default stubEnv (stubOptions "[::1]:8080" failingClient)).2.2.1
      rfl "::1".toList "8080".toList
      ⟨by decide, by decide, by decide, by decide, by decide, Or.inr (by decide)⟩⟩

end BootstrapClaims

end Saml
